import Mathlib

/-
Verification of the action-state core of leafwing-input-manager.

The file embeds src/src/action_state.rs shallowly: the HashMap from actions
to their data is modelled as an association list, f32 values as rationals,
and Instant/Duration as natural numbers.  The supporting value types
(ButtonState, Timing, DualAxisData, ActionDiff) live in crate modules that
are not part of the provided sources; they are modelled from the
specification, as marked on each definition.
-/

namespace Leafwing

/-- Modelled from the spec: the 4-value per-action transient button state
(crate::buttonlike::ButtonState, not included in the sources): Pressed,
JustPressed, Released, JustReleased. -/
inductive ButtonState where
  | Pressed
  | JustPressed
  | Released
  | JustReleased
  deriving DecidableEq

/-- Modelled from the spec: buttons start out released. -/
instance : Inhabited ButtonState := ⟨ButtonState.Released⟩

namespace ButtonState

/-- Modelled from the spec: press takes Released/JustReleased to JustPressed
and is a no-op on Pressed/JustPressed. -/
def press : ButtonState → ButtonState
  | Released => JustPressed
  | JustReleased => JustPressed
  | s => s

/-- Modelled from the spec: release takes Pressed/JustPressed to JustReleased
and is a no-op on Released/JustReleased. -/
def release : ButtonState → ButtonState
  | Pressed => JustReleased
  | JustPressed => JustReleased
  | s => s

/-- Modelled from the spec: tick collapses JustPressed to Pressed and
JustReleased to Released, leaving the steady states unchanged. -/
def tick : ButtonState → ButtonState
  | JustPressed => Pressed
  | JustReleased => Released
  | s => s

/-- Modelled from the spec: a button is pressed in the Pressed and JustPressed
states. -/
def pressed : ButtonState → Bool
  | Pressed => true
  | JustPressed => true
  | _ => false

/-- Modelled from the spec: a button is released in the Released and
JustReleased states. -/
def released : ButtonState → Bool
  | Released => true
  | JustReleased => true
  | _ => false

/-- Modelled from the spec: just pressed exactly in the JustPressed state. -/
def just_pressed : ButtonState → Bool
  | JustPressed => true
  | _ => false

/-- Modelled from the spec: just released exactly in the JustReleased state. -/
def just_released : ButtonState → Bool
  | JustReleased => true
  | _ => false

end ButtonState

/-- Modelled from the spec: timing metadata of one action
(crate::timing::Timing, not included in the sources).  Timestamps and
durations are modelled as natural numbers. -/
structure Timing where
  instant_started : Option Nat
  current_duration : Nat
  previous_duration : Nat
  deriving DecidableEq

instance : Inhabited Timing := ⟨⟨none, 0, 0⟩⟩

/-- Modelled from the spec: on a state flip the previous duration snapshots
the current one, the current duration resets to zero and the start instant is
cleared. -/
def Timing.flip (t : Timing) : Timing :=
  { instant_started := none
    current_duration := 0
    previous_duration := t.current_duration }

/-- Modelled from the spec: on tick, an unset start instant is set to the
current timestamp, and the current duration becomes the current instant minus
the larger of the start instant and the previous instant. -/
def Timing.tick (t : Timing) (current_instant previous_instant : Nat) : Timing :=
  let started := t.instant_started.getD current_instant
  { instant_started := some started
    current_duration := current_instant - max started previous_instant
    previous_duration := t.previous_duration }

/-- Modelled from the spec: a 2D axis sample (crate::axislike::DualAxisData,
not included in the sources); components modelled as rationals. -/
structure DualAxisData where
  x : Rat
  y : Rat
  deriving DecidableEq

/-- Modelled from the spec: building a DualAxisData from an (x, y) pair. -/
def DualAxisData.from_xy (p : Rat × Rat) : DualAxisData := ⟨p.1, p.2⟩

/-- Modelled from the spec: Euclidean length of a 2D sample; the rational
square root stands in for the floating-point one. -/
def vecLength (p : Rat × Rat) : Rat := Rat.sqrt (p.1 * p.1 + p.2 * p.2)

/-- Metadata about an action: button state, analog value, optional axis
sample, timing, and the consumption flag (ActionData in the source). -/
structure ActionData where
  state : ButtonState
  value : Rat
  axis_pair : Option DualAxisData
  timing : Timing
  consumed : Bool
  deriving DecidableEq

/-- The derived Default of ActionData: released, zero value, no axis pair,
default timing, not consumed. -/
instance : Inhabited ActionData := ⟨⟨ButtonState.Released, 0, none, default, false⟩⟩

/-- An action diff (crate::action_diff::ActionDiff, not included in the
sources), the compact event representation replayed by apply_diff; its four
variants are fixed by the spec and by the match in apply_diff. -/
inductive ActionDiff (A : Type) where
  | Pressed (action : A)
  | Released (action : A)
  | ValueChanged (action : A) (value : Rat)
  | AxisPairChanged (action : A) (axis_pair : Rat × Rat)

/-- The action state: the hash map from actions to their data, modelled as an
association list keyed by the action. -/
abbrev ActionState (A : Type) : Type := List (A × ActionData)

section Ops

variable {A : Type} [DecidableEq A]

/-- Map lookup (HashMap.get): the datum of the first entry with the given
key, if any. -/
def lookupAD : ActionState A → A → Option ActionData
  | [], _ => none
  | p :: rest, a => if p.1 = a then some p.2 else lookupAD rest a

/-- Map insertion (HashMap.insert): replaces the entry with the given key, or
appends a new entry. -/
def insertAD : ActionState A → A → ActionData → ActionState A
  | [], a, d => [(a, d)]
  | p :: rest, a, d => if p.1 = a then (a, d) :: rest else p :: insertAD rest a d

/-- In-place mutation through a mutable map entry: applies the function to
the entry with the given key, if present. -/
def modifyAD : ActionState A → A → (ActionData → ActionData) → ActionState A
  | [], _, _ => []
  | p :: rest, a, f => if p.1 = a then (a, f p.2) :: rest else p :: modifyAD rest a f

/-- The body of ActionState::press on the fetched datum: a consumed action is
left untouched; otherwise the timing flips on a released-to-pressed edge and
the button state is pressed. -/
def pressData (d : ActionData) : ActionData :=
  if d.consumed then d
  else
    { d with
      timing := if d.state.released then d.timing.flip else d.timing
      state := d.state.press }

/-- The body of ActionState::release on the fetched datum: clears the
consumption flag, flips timing on a pressed-to-released edge, releases the
button state. -/
def releaseData (d : ActionData) : ActionData :=
  { d with
    consumed := false
    timing := if d.state.pressed then d.timing.flip else d.timing
    state := d.state.release }

/-- The body of ActionState::consume on the fetched datum: sets the
consumption flag, releases the button state, unconditionally flips timing. -/
def consumeData (d : ActionData) : ActionData :=
  { d with
    consumed := true
    state := d.state.release
    timing := d.timing.flip }

/-- The fetch-or-create pattern shared by press, release and consume: a
missing datum is inserted as the default before being mutated in place. -/
def withDatum (s : ActionState A) (a : A) (f : ActionData → ActionData) : ActionState A :=
  match lookupAD s a with
  | some _ => modifyAD s a f
  | none => modifyAD (insertAD s a default) a f

/-- ActionState::press. -/
def ActionState.press (s : ActionState A) (a : A) : ActionState A :=
  withDatum s a pressData

/-- ActionState::release. -/
def ActionState.release (s : ActionState A) (a : A) : ActionState A :=
  withDatum s a releaseData

/-- ActionState::consume. -/
def ActionState.consume (s : ActionState A) (a : A) : ActionState A :=
  withDatum s a consumeData

/-- The occupied branch of ActionState::update: the stored state is pressed
or released according to the incoming state, and the axis pair and value are
overwritten by the incoming ones; timing and consumed are untouched. -/
def mergeData (incoming d : ActionData) : ActionData :=
  { d with
    state :=
      match incoming.state with
      | ButtonState.JustPressed => d.state.press
      | ButtonState.Pressed => d.state.press
      | ButtonState.JustReleased => d.state.release
      | ButtonState.Released => d.state.release
    axis_pair := incoming.axis_pair
    value := incoming.value }

/-- One iteration of the loop in ActionState::update: merge into an occupied
entry, insert the incoming datum verbatim into a vacant one. -/
def updateOne (s : ActionState A) (pr : A × ActionData) : ActionState A :=
  match lookupAD s pr.1 with
  | some _ => modifyAD s pr.1 (mergeData pr.2)
  | none => insertAD s pr.1 pr.2

/-- ActionState::update: folds the incoming batch over the stored map. -/
def ActionState.update (s : ActionState A) (batch : List (A × ActionData)) : ActionState A :=
  batch.foldl updateOne s

/-- ActionState::tick: first advances every button state, then advances the
timing of every non-consumed action. -/
def ActionState.tick (s : ActionState A) (current_instant previous_instant : Nat) :
    ActionState A :=
  (s.map fun p => (p.1, { p.2 with state := p.2.state.tick })).map fun p =>
    (p.1,
      if p.2.consumed then p.2
      else { p.2 with timing := p.2.timing.tick current_instant previous_instant })

/-- ActionState::keys. -/
def ActionState.keys (s : ActionState A) : List A := s.map Prod.fst

/-- ActionState::consume_all: consume every known key. -/
def ActionState.consume_all (s : ActionState A) : ActionState A :=
  (ActionState.keys s).foldl (fun st a => ActionState.consume st a) s

/-- ActionState::release_all: release every known key. -/
def ActionState.release_all (s : ActionState A) : ActionState A :=
  (ActionState.keys s).foldl (fun st a => ActionState.release st a) s

/-- ActionState::pressed (absent key: false). -/
def ActionState.pressed (s : ActionState A) (a : A) : Bool :=
  match lookupAD s a with
  | some d => d.state.pressed
  | none => false

/-- ActionState::just_pressed (absent key: false). -/
def ActionState.just_pressed (s : ActionState A) (a : A) : Bool :=
  match lookupAD s a with
  | some d => d.state.just_pressed
  | none => false

/-- ActionState::released (absent key: true). -/
def ActionState.released (s : ActionState A) (a : A) : Bool :=
  match lookupAD s a with
  | some d => d.state.released
  | none => true

/-- ActionState::just_released (absent key: false). -/
def ActionState.just_released (s : ActionState A) (a : A) : Bool :=
  match lookupAD s a with
  | some d => d.state.just_released
  | none => false

/-- ActionState::consumed (absent key: false). -/
def ActionState.consumed (s : ActionState A) (a : A) : Bool :=
  match lookupAD s a with
  | some d => d.consumed
  | none => false

/-- ActionState::value (absent key: zero). -/
def ActionState.value (s : ActionState A) (a : A) : Rat :=
  match lookupAD s a with
  | some d => d.value
  | none => 0

/-- ActionState::axis_pair (absent key: none). -/
def ActionState.axis_pair (s : ActionState A) (a : A) : Option DualAxisData :=
  (lookupAD s a).bind fun d => d.axis_pair

/-- ActionState::instant_started (absent key: none). -/
def ActionState.instant_started (s : ActionState A) (a : A) : Option Nat :=
  (lookupAD s a).bind fun d => d.timing.instant_started

/-- ActionState::current_duration (absent key: zero). -/
def ActionState.current_duration (s : ActionState A) (a : A) : Nat :=
  match lookupAD s a with
  | some d => d.timing.current_duration
  | none => 0

/-- ActionState::previous_duration (absent key: zero). -/
def ActionState.previous_duration (s : ActionState A) (a : A) : Nat :=
  match lookupAD s a with
  | some d => d.timing.previous_duration
  | none => 0

/-- ActionState::apply_diff: Pressed, ValueChanged and AxisPairChanged route
through press before overwriting value and axis pair through the mutable
entry; Released routes through release, then zeroes the value and clears the
axis pair. -/
def ActionState.apply_diff (s : ActionState A) : ActionDiff A → ActionState A
  | ActionDiff.Pressed a =>
      modifyAD (ActionState.press s a) a fun d => { d with value := 1 }
  | ActionDiff.Released a =>
      modifyAD (ActionState.release s a) a fun d =>
        { d with value := 0, axis_pair := none }
  | ActionDiff.ValueChanged a v =>
      modifyAD (ActionState.press s a) a fun d => { d with value := v }
  | ActionDiff.AxisPairChanged a p =>
      modifyAD (ActionState.press s a) a fun d =>
        { d with axis_pair := some (DualAxisData.from_xy p), value := vecLength p }

/-- N-fold repetition of press with no intervening tick. -/
def ActionState.pressN (s : ActionState A) (a : A) : Nat → ActionState A
  | 0 => s
  | n + 1 => ActionState.press (ActionState.pressN s a n) a

/-- Folding a list of (current, previous) instants through tick. -/
def ActionState.tickN (s : ActionState A) (ts : List (Nat × Nat)) : ActionState A :=
  ts.foldl (fun st cp => ActionState.tick st cp.1 cp.2) s

/-- One call of the public mutation API, used to speak about the states
reachable from the default (empty) action state. -/
inductive Op (A : Type) where
  | press (a : A)
  | release (a : A)
  | consume (a : A)
  | consume_all
  | release_all
  | update (batch : List (A × ActionData))
  | tick (current_instant previous_instant : Nat)
  | apply_diff (d : ActionDiff A)

/-- Executing one API call. -/
def execOp (s : ActionState A) : Op A → ActionState A
  | Op.press a => ActionState.press s a
  | Op.release a => ActionState.release s a
  | Op.consume a => ActionState.consume s a
  | Op.consume_all => ActionState.consume_all s
  | Op.release_all => ActionState.release_all s
  | Op.update b => ActionState.update s b
  | Op.tick c p => ActionState.tick s c p
  | Op.apply_diff d => ActionState.apply_diff s d

/-- Executing a call sequence from the default (empty) action state. -/
def execTrace (ops : List (Op A)) : ActionState A := ops.foldl execOp []

/-- The calls that neither consume nor merge a raw update batch. -/
def Op.noConsumeNoUpdate : Op A → Bool
  | Op.consume _ => false
  | Op.consume_all => false
  | Op.update _ => false
  | _ => true

end Ops

section MapLemmas

variable {A : Type} [DecidableEq A]

theorem lookupAD_insertAD_self (l : ActionState A) (a : A) (d : ActionData) :
    lookupAD (insertAD l a d) a = some d := by
  induction l with
  | nil => simp [insertAD, lookupAD]
  | cons p rest ih =>
    by_cases h : p.1 = a
    · simp [insertAD, lookupAD, h]
    · simp [insertAD, lookupAD, h, ih]

theorem lookupAD_insertAD_ne (l : ActionState A) (a b : A) (d : ActionData) (h : b ≠ a) :
    lookupAD (insertAD l a d) b = lookupAD l b := by
  have hne : ¬ a = b := fun hc => h hc.symm
  induction l with
  | nil => simp [insertAD, lookupAD, hne]
  | cons p rest ih =>
    by_cases hp : p.1 = a
    · subst hp
      simp [insertAD, lookupAD, hne]
    · simp only [insertAD, if_neg hp, lookupAD]
      by_cases hb : p.1 = b <;> simp [hb, ih]

theorem lookupAD_modifyAD_self (l : ActionState A) (a : A) (f : ActionData → ActionData) :
    lookupAD (modifyAD l a f) a = (lookupAD l a).map f := by
  induction l with
  | nil => simp [modifyAD, lookupAD]
  | cons p rest ih =>
    by_cases h : p.1 = a
    · simp [modifyAD, lookupAD, h]
    · simp [modifyAD, lookupAD, h, ih]

theorem lookupAD_modifyAD_ne (l : ActionState A) (a b : A) (f : ActionData → ActionData)
    (h : b ≠ a) : lookupAD (modifyAD l a f) b = lookupAD l b := by
  have hne : ¬ a = b := fun hc => h hc.symm
  induction l with
  | nil => simp [modifyAD, lookupAD]
  | cons p rest ih =>
    by_cases hp : p.1 = a
    · subst hp
      simp [modifyAD, lookupAD, hne]
    · simp only [modifyAD, if_neg hp, lookupAD]
      by_cases hb : p.1 = b <;> simp [hb, ih]

theorem lookupAD_withDatum_self (s : ActionState A) (a : A) (f : ActionData → ActionData) :
    lookupAD (withDatum s a f) a = some (f ((lookupAD s a).getD default)) := by
  unfold withDatum
  cases h : lookupAD s a with
  | some d => simp [lookupAD_modifyAD_self, h]
  | none => simp [lookupAD_modifyAD_self, lookupAD_insertAD_self, h]

theorem lookupAD_withDatum_ne (s : ActionState A) (a b : A) (f : ActionData → ActionData)
    (h : b ≠ a) : lookupAD (withDatum s a f) b = lookupAD s b := by
  unfold withDatum
  cases hl : lookupAD s a with
  | some d => simp [lookupAD_modifyAD_ne _ _ _ _ h]
  | none => simp [lookupAD_modifyAD_ne _ _ _ _ h, lookupAD_insertAD_ne _ _ _ _ h]

theorem lookupAD_press_self (s : ActionState A) (a : A) :
    lookupAD (ActionState.press s a) a = some (pressData ((lookupAD s a).getD default)) :=
  lookupAD_withDatum_self s a pressData

theorem lookupAD_release_self (s : ActionState A) (a : A) :
    lookupAD (ActionState.release s a) a = some (releaseData ((lookupAD s a).getD default)) :=
  lookupAD_withDatum_self s a releaseData

theorem lookupAD_consume_self (s : ActionState A) (a : A) :
    lookupAD (ActionState.consume s a) a = some (consumeData ((lookupAD s a).getD default)) :=
  lookupAD_withDatum_self s a consumeData

end MapLemmas

section DataLemmas

theorem buttonState_released_not_pressed (bs : Leafwing.ButtonState) :
    bs.released = !bs.pressed := by
  cases bs <;> rfl

theorem buttonState_release_released (bs : Leafwing.ButtonState) :
    bs.release.released = true := by
  cases bs <;> rfl

theorem buttonState_release_not_pressed (bs : Leafwing.ButtonState) :
    bs.release.pressed = false := by
  cases bs <;> rfl

theorem buttonState_rel_rel_press_pressed (bs : Leafwing.ButtonState) :
    bs.release.release.press.pressed = true := by
  cases bs <;> rfl

theorem pressData_of_consumed (d : ActionData) (h : d.consumed = true) :
    pressData d = d := by
  simp [pressData, h]

theorem consumeData_consumed (d : ActionData) : (consumeData d).consumed = true := rfl

theorem releaseData_consumed (d : ActionData) : (releaseData d).consumed = false := rfl

end DataLemmas

section Claims

variable {A : Type} [DecidableEq A]

/-- C10: for every action state and action, released is the logical negation
of pressed, including for actions with no stored datum. -/
theorem claim_C10_released_iff_not_pressed (s : ActionState A) (a : A) :
    ActionState.released s a = !ActionState.pressed s a := by
  unfold ActionState.released ActionState.pressed
  cases h : lookupAD s a with
  | none => rfl
  | some d => exact buttonState_released_not_pressed d.state

/-- C9: querying an action with no stored datum never fails and returns the
never-pressed defaults. -/
theorem claim_C9_unknown_key_defaults (s : ActionState A) (a : A)
    (h : lookupAD s a = none) :
    ActionState.pressed s a = false ∧
    ActionState.released s a = true ∧
    ActionState.just_pressed s a = false ∧
    ActionState.just_released s a = false ∧
    ActionState.value s a = 0 ∧
    ActionState.axis_pair s a = none ∧
    ActionState.current_duration s a = 0 ∧
    ActionState.previous_duration s a = 0 ∧
    ActionState.instant_started s a = none := by
  refine ⟨?_, ?_, ?_, ?_, ?_, ?_, ?_, ?_, ?_⟩ <;>
    simp [ActionState.pressed, ActionState.released, ActionState.just_pressed,
      ActionState.just_released, ActionState.value, ActionState.axis_pair,
      ActionState.current_duration, ActionState.previous_duration,
      ActionState.instant_started, h]

theorem claim_C9_witness :
    lookupAD ([] : ActionState Nat) 0 = none ∧
    ActionState.pressed ([] : ActionState Nat) 0 = false := by
  exact ⟨rfl, (claim_C9_unknown_key_defaults ([] : ActionState Nat) 0 rfl).1⟩

/-- C5: on any action state, press then consume then press leaves the action
released: released is true and pressed is false. -/
theorem claim_C5_consume_blocks_press (s : ActionState A) (a : A) :
    ActionState.released
        (ActionState.press (ActionState.consume (ActionState.press s a) a) a) a = true ∧
    ActionState.pressed
        (ActionState.press (ActionState.consume (ActionState.press s a) a) a) a = false := by
  set d0 : ActionData := (lookupAD s a).getD default with hd0
  have h1 : lookupAD (ActionState.press s a) a = some (pressData d0) :=
    lookupAD_press_self s a
  have h2 : lookupAD (ActionState.consume (ActionState.press s a) a) a
      = some (consumeData (pressData d0)) := by
    rw [lookupAD_consume_self, h1]
    rfl
  have h3 : lookupAD
      (ActionState.press (ActionState.consume (ActionState.press s a) a) a) a
      = some (consumeData (pressData d0)) := by
    rw [lookupAD_press_self, h2]
    simp [pressData_of_consumed _ (consumeData_consumed (pressData d0))]
  constructor
  · unfold ActionState.released
    rw [h3]
    exact buttonState_release_released (pressData d0).state
  · unfold ActionState.pressed
    rw [h3]
    exact buttonState_release_not_pressed (pressData d0).state

/-- C6: on any action state, consume then release then press results in the
action being pressed: an explicit release clears the consumed flag, so the
following press succeeds. -/
theorem claim_C6_release_clears_consumption (s : ActionState A) (a : A) :
    ActionState.pressed
      (ActionState.press (ActionState.release (ActionState.consume s a) a) a) a = true := by
  set d0 : ActionData := (lookupAD s a).getD default with hd0
  have h1 : lookupAD (ActionState.consume s a) a = some (consumeData d0) :=
    lookupAD_consume_self s a
  have h2 : lookupAD (ActionState.release (ActionState.consume s a) a) a
      = some (releaseData (consumeData d0)) := by
    rw [lookupAD_release_self, h1]
    rfl
  have h3 : lookupAD
      (ActionState.press (ActionState.release (ActionState.consume s a) a) a) a
      = some (pressData (releaseData (consumeData d0))) := by
    rw [lookupAD_press_self, h2]
    rfl
  unfold ActionState.pressed
  rw [h3]
  show (pressData (releaseData (consumeData d0))).state.pressed = true
  have hc : (releaseData (consumeData d0)).consumed = false := rfl
  simp only [pressData, hc, Bool.false_eq_true, if_false]
  exact buttonState_rel_rel_press_pressed d0.state

end Claims

section Invariant

variable {A : Type} [DecidableEq A]

/-- All stored data have a cleared consumption flag. -/
def allNotConsumed (s : ActionState A) : Prop :=
  ∀ q ∈ s, (Prod.snd q).consumed = false

theorem mem_insertAD {l : ActionState A} {a : A} {d : ActionData} {q : A × ActionData}
    (hq : q ∈ insertAD l a d) : q ∈ l ∨ q = (a, d) := by
  induction l with
  | nil =>
    simp [insertAD] at hq
    exact Or.inr hq
  | cons p rest ih =>
    by_cases hp : p.1 = a
    · simp only [insertAD, if_pos hp, List.mem_cons] at hq
      rcases hq with hq | hq
      · exact Or.inr hq
      · exact Or.inl (List.mem_cons_of_mem p hq)
    · simp only [insertAD, if_neg hp, List.mem_cons] at hq
      rcases hq with hq | hq
      · exact Or.inl (by simp [hq])
      · rcases ih hq with h1 | h1
        · exact Or.inl (List.mem_cons_of_mem p h1)
        · exact Or.inr h1

theorem mem_modifyAD {l : ActionState A} {a : A} {f : ActionData → ActionData}
    {q : A × ActionData} (hq : q ∈ modifyAD l a f) :
    q ∈ l ∨ ∃ d0, (a, d0) ∈ l ∧ q = (a, f d0) := by
  induction l with
  | nil => simp [modifyAD] at hq
  | cons p rest ih =>
    by_cases hp : p.1 = a
    · simp only [modifyAD, if_pos hp, List.mem_cons] at hq
      rcases hq with hq | hq
      · refine Or.inr ⟨p.2, ?_, hq⟩
        rw [← hp]
        exact List.mem_cons_self p rest
      · exact Or.inl (List.mem_cons_of_mem p hq)
    · simp only [modifyAD, if_neg hp, List.mem_cons] at hq
      rcases hq with hq | hq
      · exact Or.inl (by simp [hq])
      · rcases ih hq with h1 | ⟨d0, hd0, hq1⟩
        · exact Or.inl (List.mem_cons_of_mem p h1)
        · exact Or.inr ⟨d0, List.mem_cons_of_mem p hd0, hq1⟩

theorem mem_withDatum {s : ActionState A} {a : A} {f : ActionData → ActionData}
    {q : A × ActionData} (hq : q ∈ withDatum s a f) :
    q ∈ s ∨ q = (a, default) ∨
      ∃ d0, ((a, d0) ∈ s ∨ d0 = (default : ActionData)) ∧ q = (a, f d0) := by
  unfold withDatum at hq
  split at hq
  · rcases mem_modifyAD hq with h1 | ⟨d0, hd0, hq1⟩
    · exact Or.inl h1
    · exact Or.inr (Or.inr ⟨d0, Or.inl hd0, hq1⟩)
  · rcases mem_modifyAD hq with h1 | ⟨d0, hd0, hq1⟩
    · rcases mem_insertAD h1 with h2 | h2
      · exact Or.inl h2
      · exact Or.inr (Or.inl h2)
    · rcases mem_insertAD hd0 with h2 | h2
      · exact Or.inr (Or.inr ⟨d0, Or.inl h2, hq1⟩)
      · exact Or.inr (Or.inr ⟨d0, Or.inr (congrArg Prod.snd h2), hq1⟩)

theorem allNotConsumed_modifyAD {l : ActionState A} {a : A} (f : ActionData → ActionData)
    (hf : ∀ d, d.consumed = false → (f d).consumed = false)
    (h : allNotConsumed l) : allNotConsumed (modifyAD l a f) := by
  intro q hq
  rcases mem_modifyAD hq with h1 | ⟨d0, hd0, hq1⟩
  · exact h q h1
  · rw [hq1]
    exact hf d0 (h (a, d0) hd0)

theorem allNotConsumed_withDatum {s : ActionState A} {a : A} (f : ActionData → ActionData)
    (hf : ∀ d, d.consumed = false → (f d).consumed = false)
    (h : allNotConsumed s) : allNotConsumed (withDatum s a f) := by
  intro q hq
  rcases mem_withDatum hq with h1 | h1 | ⟨d0, hd0, hq1⟩
  · exact h q h1
  · rw [h1]
    rfl
  · rw [hq1]
    refine hf d0 ?_
    rcases hd0 with h2 | h2
    · exact h (a, d0) h2
    · rw [h2]
      rfl

theorem pressData_consumed_of_not (d : ActionData) (hd : d.consumed = false) :
    (pressData d).consumed = false := by
  simp [pressData, hd]

theorem allNotConsumed_press (a : A) {s : ActionState A} (h : allNotConsumed s) :
    allNotConsumed (ActionState.press s a) :=
  allNotConsumed_withDatum pressData pressData_consumed_of_not h

theorem allNotConsumed_release (a : A) {s : ActionState A} (h : allNotConsumed s) :
    allNotConsumed (ActionState.release s a) :=
  allNotConsumed_withDatum releaseData (fun _ _ => rfl) h

theorem allNotConsumed_map (g : ActionData → ActionData)
    (hg : ∀ d, d.consumed = false → (g d).consumed = false)
    {s : ActionState A} (h : allNotConsumed s) :
    allNotConsumed (s.map fun q => (q.1, g q.2)) := by
  intro q hq
  rcases List.mem_map.mp hq with ⟨q0, hq0, rfl⟩
  exact hg q0.2 (h q0 hq0)

theorem allNotConsumed_tick (c p : Nat) {s : ActionState A} (h : allNotConsumed s) :
    allNotConsumed (ActionState.tick s c p) := by
  unfold ActionState.tick
  refine allNotConsumed_map
    (fun d => if d.consumed then d else { d with timing := d.timing.tick c p })
    (fun d hd => by simp [hd])
    (allNotConsumed_map (fun d => { d with state := d.state.tick }) (fun d hd => hd) h)

theorem allNotConsumed_foldl_release (ks : List A) {s : ActionState A}
    (h : allNotConsumed s) :
    allNotConsumed (ks.foldl (fun st a => ActionState.release st a) s) := by
  induction ks generalizing s with
  | nil => exact h
  | cons k rest ih => exact ih (allNotConsumed_release k h)

theorem allNotConsumed_apply_diff (df : ActionDiff A) {s : ActionState A}
    (h : allNotConsumed s) : allNotConsumed (ActionState.apply_diff s df) := by
  cases df with
  | Pressed a =>
    exact allNotConsumed_modifyAD _ (fun d hd => hd) (allNotConsumed_press a h)
  | Released a =>
    exact allNotConsumed_modifyAD _ (fun d hd => hd) (allNotConsumed_release a h)
  | ValueChanged a v =>
    exact allNotConsumed_modifyAD _ (fun d hd => hd) (allNotConsumed_press a h)
  | AxisPairChanged a p =>
    exact allNotConsumed_modifyAD _ (fun d hd => hd) (allNotConsumed_press a h)

theorem allNotConsumed_execOp (op : Op A) {s : ActionState A}
    (hop : Op.noConsumeNoUpdate op = true) (h : allNotConsumed s) :
    allNotConsumed (execOp s op) := by
  cases op with
  | press a => exact allNotConsumed_press a h
  | release a => exact allNotConsumed_release a h
  | consume a => simp [Op.noConsumeNoUpdate] at hop
  | consume_all => simp [Op.noConsumeNoUpdate] at hop
  | release_all => exact allNotConsumed_foldl_release _ h
  | update b => simp [Op.noConsumeNoUpdate] at hop
  | tick c p => exact allNotConsumed_tick c p h
  | apply_diff df => exact allNotConsumed_apply_diff df h

theorem allNotConsumed_foldl_execOp (ops : List (Op A)) {s : ActionState A}
    (hops : ops.all Op.noConsumeNoUpdate = true) (h : allNotConsumed s) :
    allNotConsumed (ops.foldl execOp s) := by
  induction ops generalizing s with
  | nil => exact h
  | cons op rest ih =>
    rw [List.all_cons, Bool.and_eq_true] at hops
    exact ih hops.2 (allNotConsumed_execOp op hops.1 h)

theorem lookupAD_mem {l : ActionState A} {a : A} {d : ActionData}
    (h : lookupAD l a = some d) : (a, d) ∈ l := by
  induction l with
  | nil => cases h
  | cons p rest ih =>
    by_cases hp : p.1 = a
    · simp only [lookupAD, if_pos hp, Option.some.injEq] at h
      subst hp
      rw [← h]
      exact List.mem_cons_self p rest
    · simp only [lookupAD, if_neg hp] at h
      exact List.mem_cons_of_mem p (ih h)

end Invariant

section ClaimsTwo

variable {A : Type} [DecidableEq A]

/-- C1: the code evaluated at the failing input of the claim.  After consume
has set the consumed flag, an update whose datum for the action carries a
released-variant button state does not clear the flag, so a subsequent press
leaves the action unpressed, contrary to the claim (and to the doc comment of
consume in the source, which names update as a way to re-enable pressing). -/
theorem claim_C1_code_eval :
    (default : ActionData).state.released = true ∧
    ActionState.consumed
      (ActionState.update
        (ActionState.consume (ActionState.press ([] : ActionState Nat) 0) 0)
        [(0, default)]) 0 = true ∧
    ActionState.pressed
      (ActionState.press
        (ActionState.update
          (ActionState.consume (ActionState.press ([] : ActionState Nat) 0) 0)
          [(0, default)]) 0) 0 = false := by
  exact ⟨rfl, rfl, rfl⟩

/-- C2: counterexample to the claimed invariant.  The state reached from the
default state by press 0 then consume 0 stores a datum for 0 whose button
state is a released variant while its consumed flag is true. -/
theorem claim_C2_counterexample :
    (lookupAD (execTrace ([Op.press 0, Op.consume 0] : List (Op Nat))) 0).isSome = true ∧
    ((lookupAD (execTrace ([Op.press 0, Op.consume 0] : List (Op Nat))) 0).getD
        default).state.released = true ∧
    ((lookupAD (execTrace ([Op.press 0, Op.consume 0] : List (Op Nat))) 0).getD
        default).consumed = true := by
  exact ⟨rfl, rfl, rfl⟩

/-- C2 (amended): in every action state reachable from the default (empty)
state by press, release, release_all, tick and apply_diff calls (consume,
consume_all and update excluded), every stored datum whose button state is a
released variant has consumed equal to false. -/
theorem claim_C2_amended_invariant (ops : List (Op A))
    (hops : ops.all Op.noConsumeNoUpdate = true) (a : A) (d : ActionData)
    (hl : lookupAD (execTrace ops) a = some d) (hrel : d.state.released = true) :
    d.consumed = false := by
  have h0 : allNotConsumed ([] : ActionState A) := by
    intro q hq
    cases hq
  have hinv : allNotConsumed (execTrace ops) := allNotConsumed_foldl_execOp ops hops h0
  exact hinv (a, d) (lookupAD_mem hl)

theorem claim_C2_amended_invariant_witness :
    ([Op.press 0, Op.release 0] : List (Op Nat)).all Op.noConsumeNoUpdate = true ∧
    lookupAD (execTrace ([Op.press 0, Op.release 0] : List (Op Nat))) 0 =
      some ⟨ButtonState.JustReleased, 0, none, ⟨none, 0, 0⟩, false⟩ ∧
    (⟨ButtonState.JustReleased, 0, none, ⟨none, 0, 0⟩, false⟩ : ActionData).state.released
      = true ∧
    (⟨ButtonState.JustReleased, 0, none, ⟨none, 0, 0⟩, false⟩ : ActionData).consumed
      = false := by
  refine ⟨rfl, rfl, rfl, ?_⟩
  exact claim_C2_amended_invariant ([Op.press 0, Op.release 0] : List (Op Nat)) rfl 0
    ⟨ButtonState.JustReleased, 0, none, ⟨none, 0, 0⟩, false⟩ rfl rfl

end ClaimsTwo

section UpdateLemmas

variable {A : Type} [DecidableEq A]

theorem update_cons (s : ActionState A) (pr : A × ActionData)
    (rest : List (A × ActionData)) :
    ActionState.update s (pr :: rest) = ActionState.update (updateOne s pr) rest := rfl

theorem lookupAD_updateOne_ne (s : ActionState A) (pr : A × ActionData) (a : A)
    (h : a ≠ pr.1) : lookupAD (updateOne s pr) a = lookupAD s a := by
  unfold updateOne
  split
  · exact lookupAD_modifyAD_ne s pr.1 a _ h
  · exact lookupAD_insertAD_ne s pr.1 a pr.2 h

theorem lookupAD_updateOne_occupied (s : ActionState A) (pr : A × ActionData)
    (d : ActionData) (hd : lookupAD s pr.1 = some d) :
    lookupAD (updateOne s pr) pr.1 = some (mergeData pr.2 d) := by
  unfold updateOne
  split
  · rw [lookupAD_modifyAD_self, hd]
    rfl
  · rename_i heq
    rw [hd] at heq
    cases heq

theorem update_preserves (batch : List (A × ActionData)) (s : ActionState A) (a : A)
    (d : ActionData) (hd : lookupAD s a = some d) :
    ∃ d2, lookupAD (ActionState.update s batch) a = some d2 ∧
      d2.timing = d.timing ∧ d2.consumed = d.consumed := by
  induction batch generalizing s d with
  | nil => exact ⟨d, hd, rfl, rfl⟩
  | cons pr rest ih =>
    rw [update_cons]
    by_cases hpa : pr.1 = a
    · have hd1 : lookupAD s pr.1 = some d := by rw [hpa]; exact hd
      have h1 := lookupAD_updateOne_occupied s pr d hd1
      rw [hpa] at h1
      obtain ⟨d2, h2, ht, hc⟩ := ih (updateOne s pr) (mergeData pr.2 d) h1
      exact ⟨d2, h2, ht, hc⟩
    · have h1 : lookupAD (updateOne s pr) a = some d := by
        rw [lookupAD_updateOne_ne s pr a (fun hc => hpa hc.symm)]
        exact hd
      exact ih (updateOne s pr) d h1

theorem lookupAD_update_not_mem (batch : List (A × ActionData)) (s : ActionState A)
    (a : A) (ha : a ∉ batch.map Prod.fst) :
    lookupAD (ActionState.update s batch) a = lookupAD s a := by
  induction batch generalizing s with
  | nil => rfl
  | cons pr rest ih =>
    rw [List.map_cons, List.mem_cons] at ha
    push_neg at ha
    rw [update_cons, ih (updateOne s pr) ha.2, lookupAD_updateOne_ne s pr a ha.1]

theorem update_inserts_absent (batch : List (A × ActionData)) (s : ActionState A)
    (a : A) (nd : ActionData) (hnd : (batch.map Prod.fst).Nodup)
    (ha : lookupAD s a = none) (hmem : (a, nd) ∈ batch) :
    lookupAD (ActionState.update s batch) a = some nd := by
  induction batch generalizing s with
  | nil => cases hmem
  | cons pr rest ih =>
    rw [List.map_cons, List.nodup_cons] at hnd
    rw [update_cons]
    rcases List.mem_cons.mp hmem with hh | ht
    · have hpr1 : pr.1 = a := by rw [← hh]
      have hins : lookupAD (updateOne s pr) a = some nd := by
        unfold updateOne
        split
        · rename_i heq
          rw [hpr1, ha] at heq
          cases heq
        · rw [← hh]
          exact lookupAD_insertAD_self s a nd
      have hnot : a ∉ rest.map Prod.fst := by
        rw [← hpr1]
        exact hnd.1
      rw [lookupAD_update_not_mem rest (updateOne s pr) a hnot, hins]
    · have hpa : pr.1 ≠ a := by
        intro hc
        apply hnd.1
        rw [hc]
        exact List.mem_map_of_mem Prod.fst ht
      have h1 : lookupAD (updateOne s pr) a = none := by
        rw [lookupAD_updateOne_ne s pr a (fun hc => hpa hc.symm)]
        exact ha
      exact ih (updateOne s pr) hnd.2 h1 ht

end UpdateLemmas

section PressLemmas

variable {A : Type} [DecidableEq A]

theorem buttonState_press_of_released (bs : Leafwing.ButtonState) (h : bs.released = true) :
    bs.press = ButtonState.JustPressed := by
  cases bs <;> first | rfl | simp [ButtonState.released] at h

theorem pressData_pressData (d : ActionData) (h : d.consumed = false) :
    pressData (pressData d) = pressData d := by
  obtain ⟨st, v, ap, tm, c⟩ := d
  cases c with
  | false => cases st <;> rfl
  | true => simp at h

theorem withDatum_of_present (s : ActionState A) (a : A) (f : ActionData → ActionData)
    (d : ActionData) (hl : lookupAD s a = some d) :
    withDatum s a f = modifyAD s a f := by
  unfold withDatum
  rw [hl]

theorem modifyAD_lookup_fixed (l : ActionState A) (a : A) (f : ActionData → ActionData)
    (d : ActionData) (hl : lookupAD l a = some d) (hf : f d = d) :
    modifyAD l a f = l := by
  induction l with
  | nil => rfl
  | cons p rest ih =>
    by_cases hp : p.1 = a
    · simp only [lookupAD, if_pos hp, Option.some.injEq] at hl
      simp only [modifyAD, if_pos hp]
      rw [hl, hf, ← hp, ← hl]
    · simp only [lookupAD, if_neg hp] at hl
      simp only [modifyAD, if_neg hp]
      rw [ih hl]

theorem consumed_getD_of_not (s : ActionState A) (a : A)
    (h : ActionState.consumed s a = false) :
    ((lookupAD s a).getD default).consumed = false := by
  unfold ActionState.consumed at h
  cases hl : lookupAD s a with
  | none => rfl
  | some d =>
    rw [hl] at h
    exact h

theorem released_getD_of (s : ActionState A) (a : A)
    (h : ActionState.released s a = true) :
    ((lookupAD s a).getD default).state.released = true := by
  unfold ActionState.released at h
  cases hl : lookupAD s a with
  | none => rfl
  | some d =>
    rw [hl] at h
    exact h

theorem press_press_of_not_consumed (s : ActionState A) (a : A)
    (h : ActionState.consumed s a = false) :
    ActionState.press (ActionState.press s a) a = ActionState.press s a := by
  have hd0c := consumed_getD_of_not s a h
  have h1 := lookupAD_press_self s a
  show withDatum (ActionState.press s a) a pressData = ActionState.press s a
  rw [withDatum_of_present (ActionState.press s a) a pressData _ h1]
  exact modifyAD_lookup_fixed (ActionState.press s a) a pressData _ h1
    (pressData_pressData _ hd0c)

end PressLemmas

section TickLemmas

variable {A : Type} [DecidableEq A]

theorem lookupAD_tickStateMap (l : ActionState A) (a : A) :
    lookupAD (l.map fun q => (q.1, { q.2 with state := q.2.state.tick })) a =
      (lookupAD l a).map fun d => { d with state := d.state.tick } := by
  induction l with
  | nil => rfl
  | cons q rest ih =>
    by_cases h : q.1 = a <;> simp [lookupAD, h, ih]

theorem lookupAD_tickTimingMap (l : ActionState A) (a : A) (c p : Nat) :
    lookupAD (l.map fun q =>
        (q.1, if q.2.consumed then q.2 else { q.2 with timing := q.2.timing.tick c p })) a =
      (lookupAD l a).map fun d =>
        if d.consumed then d else { d with timing := d.timing.tick c p } := by
  induction l with
  | nil => rfl
  | cons q rest ih =>
    by_cases h : q.1 = a <;> simp [lookupAD, h, ih]

theorem lookupAD_tick_consumed (s : ActionState A) (a : A) (c p : Nat) (d : ActionData)
    (hl : lookupAD s a = some d) (hc : d.consumed = true) :
    lookupAD (ActionState.tick s c p) a = some { d with state := d.state.tick } := by
  unfold ActionState.tick
  rw [lookupAD_tickTimingMap, lookupAD_tickStateMap, hl]
  simp [hc]

theorem tickN_consumed_lookup (ts : List (Nat × Nat)) (s : ActionState A) (a : A)
    (d : ActionData) (hl : lookupAD s a = some d) (hc : d.consumed = true) :
    ∃ bs, lookupAD (ActionState.tickN s ts) a = some { d with state := bs } := by
  induction ts generalizing s d with
  | nil => exact ⟨d.state, hl⟩
  | cons cp rest ih =>
    have h1 := lookupAD_tick_consumed s a cp.1 cp.2 d hl hc
    obtain ⟨bs, hbs⟩ :=
      ih (ActionState.tick s cp.1 cp.2) { d with state := d.state.tick } h1 hc
    exact ⟨bs, hbs⟩

end TickLemmas

section ClaimsThree

variable {A : Type} [DecidableEq A]

/-- C3: for every entry existing before the update, update changes at most
the button state, value and axis pair (timing and consumed survive the
update), and an entry absent before the update is inserted exactly as the
incoming datum. -/
theorem claim_C3_update_merge (s : ActionState A) (batch : List (A × ActionData)) (a : A)
    (hnd : (batch.map Prod.fst).Nodup) :
    (∀ d, lookupAD s a = some d →
      ∃ d2, lookupAD (ActionState.update s batch) a = some d2 ∧
        d2.timing = d.timing ∧ d2.consumed = d.consumed) ∧
    (∀ nd, lookupAD s a = none → (a, nd) ∈ batch →
      lookupAD (ActionState.update s batch) a = some nd) :=
  ⟨fun d hd => update_preserves batch s a d hd,
    fun nd ha hmem => update_inserts_absent batch s a nd hnd ha hmem⟩

theorem claim_C3_update_merge_witness :
    ((([(0, (default : ActionData)), (1, default)] : List (Nat × ActionData)).map
        Prod.fst).Nodup) ∧
    lookupAD ([(0, (default : ActionData))] : ActionState Nat) 0 = some default ∧
    (∃ d2,
      lookupAD
        (ActionState.update ([(0, (default : ActionData))] : ActionState Nat)
          [(0, default), (1, default)]) 0 = some d2 ∧
      d2.timing = (default : ActionData).timing ∧
      d2.consumed = (default : ActionData).consumed) := by
  refine ⟨by decide, rfl, ?_⟩
  exact (claim_C3_update_merge ([(0, (default : ActionData))] : ActionState Nat)
    [(0, default), (1, default)] 0 (by decide)).1 default rfl

/-- C7: for an action that is not currently consumed, repeated press calls
with no intervening tick are idempotent: N presses give the same state as
one, and when the action was released, a single press produces the JustPressed
state with the timing flipped exactly once. -/
theorem claim_C7_press_idempotent (s : ActionState A) (a : A)
    (h : ActionState.consumed s a = false) :
    (∀ n, 1 ≤ n → ActionState.pressN s a n = ActionState.press s a) ∧
    (ActionState.released s a = true →
      lookupAD (ActionState.press s a) a =
        some { (lookupAD s a).getD default with
               timing := ((lookupAD s a).getD default).timing.flip
               state := ButtonState.JustPressed }) := by
  constructor
  · intro n hn
    induction n with
    | zero => exact absurd hn (by decide)
    | succ m ih =>
      cases m with
      | zero => rfl
      | succ k =>
        have hm : 1 ≤ k + 1 := Nat.succ_le_succ (Nat.zero_le k)
        show ActionState.press (ActionState.pressN s a (k + 1)) a = ActionState.press s a
        rw [ih hm]
        exact press_press_of_not_consumed s a h
  · intro hrel
    have hd0c := consumed_getD_of_not s a h
    have hrel0 := released_getD_of s a hrel
    rw [lookupAD_press_self]
    have hpd : pressData ((lookupAD s a).getD default) =
        { (lookupAD s a).getD default with
          timing := ((lookupAD s a).getD default).timing.flip
          state := ButtonState.JustPressed } := by
      simp [pressData, hd0c, hrel0, buttonState_press_of_released _ hrel0]
    rw [hpd]

theorem claim_C7_press_idempotent_witness :
    ActionState.consumed ([] : ActionState Nat) 0 = false ∧
    ActionState.pressN ([] : ActionState Nat) 0 2 = ActionState.press ([] : ActionState Nat) 0 := by
  exact ⟨rfl, (claim_C7_press_idempotent ([] : ActionState Nat) 0 rfl).1 2 (by decide)⟩

/-- C8: while an action remains consumed, ticking any number of times with
any instants leaves its current duration unchanged, while one tick still
advances its button state. -/
theorem claim_C8_timing_freeze (s : ActionState A) (a : A) (d : ActionData)
    (hl : lookupAD s a = some d) (hc : d.consumed = true) :
    (∀ ts : List (Nat × Nat),
      ActionState.current_duration (ActionState.tickN s ts) a =
        ActionState.current_duration s a) ∧
    (∀ c p, lookupAD (ActionState.tick s c p) a =
      some { d with state := d.state.tick }) := by
  constructor
  · intro ts
    obtain ⟨bs, hbs⟩ := tickN_consumed_lookup ts s a d hl hc
    unfold ActionState.current_duration
    rw [hbs, hl]
  · intro c p
    exact lookupAD_tick_consumed s a c p d hl hc

theorem claim_C8_timing_freeze_witness :
    lookupAD ([(0, ⟨ButtonState.Released, 0, none, ⟨none, 0, 0⟩, true⟩)] : ActionState Nat) 0
      = some ⟨ButtonState.Released, 0, none, ⟨none, 0, 0⟩, true⟩ ∧
    (⟨ButtonState.Released, 0, none, ⟨none, 0, 0⟩, true⟩ : ActionData).consumed = true ∧
    ActionState.current_duration
      (ActionState.tickN
        ([(0, ⟨ButtonState.Released, 0, none, ⟨none, 0, 0⟩, true⟩)] : ActionState Nat)
        [(5, 3)]) 0 =
      ActionState.current_duration
        ([(0, ⟨ButtonState.Released, 0, none, ⟨none, 0, 0⟩, true⟩)] : ActionState Nat) 0 := by
  refine ⟨rfl, rfl, ?_⟩
  exact (claim_C8_timing_freeze
    ([(0, ⟨ButtonState.Released, 0, none, ⟨none, 0, 0⟩, true⟩)] : ActionState Nat) 0
    ⟨ButtonState.Released, 0, none, ⟨none, 0, 0⟩, true⟩ rfl rfl).1 [(5, 3)]

/-- C4: apply_diff routes Pressed, ValueChanged and AxisPairChanged through
press, and Released through release, before overwriting the value and axis
pair through the mutable entry; press and release always leave the datum
present, so the in-place mutation finds it, and the overwritten readings are
observable through the accessors. -/
theorem claim_C4_apply_diff_routing (s : ActionState A) (a : A) (v : Rat)
    (p : Rat × Rat) :
    ActionState.apply_diff s (ActionDiff.Pressed a) =
      modifyAD (ActionState.press s a) a (fun d => { d with value := 1 }) ∧
    ActionState.apply_diff s (ActionDiff.ValueChanged a v) =
      modifyAD (ActionState.press s a) a (fun d => { d with value := v }) ∧
    ActionState.apply_diff s (ActionDiff.AxisPairChanged a p) =
      modifyAD (ActionState.press s a) a
        (fun d => { d with axis_pair := some (DualAxisData.from_xy p)
                           value := vecLength p }) ∧
    ActionState.apply_diff s (ActionDiff.Released a) =
      modifyAD (ActionState.release s a) a
        (fun d => { d with value := 0, axis_pair := none }) ∧
    (lookupAD (ActionState.press s a) a).isSome = true ∧
    (lookupAD (ActionState.release s a) a).isSome = true ∧
    ActionState.value (ActionState.apply_diff s (ActionDiff.ValueChanged a v)) a = v ∧
    ActionState.value (ActionState.apply_diff s (ActionDiff.Released a)) a = 0 ∧
    ActionState.axis_pair (ActionState.apply_diff s (ActionDiff.Released a)) a = none := by
  refine ⟨rfl, rfl, rfl, rfl, ?_, ?_, ?_, ?_, ?_⟩
  · rw [lookupAD_press_self]
    rfl
  · rw [lookupAD_release_self]
    rfl
  · show ActionState.value
      (modifyAD (ActionState.press s a) a (fun d => { d with value := v })) a = v
    unfold ActionState.value
    rw [lookupAD_modifyAD_self, lookupAD_press_self]
    rfl
  · show ActionState.value
      (modifyAD (ActionState.release s a) a
        (fun d => { d with value := 0, axis_pair := none })) a = 0
    unfold ActionState.value
    rw [lookupAD_modifyAD_self, lookupAD_release_self]
    rfl
  · show ActionState.axis_pair
      (modifyAD (ActionState.release s a) a
        (fun d => { d with value := 0, axis_pair := none })) a = none
    unfold ActionState.axis_pair
    rw [lookupAD_modifyAD_self, lookupAD_release_self]
    rfl

end ClaimsThree

end Leafwing
